import Mathlib

/-!
Verification of the ExtraHID IR peripheral protocol logic
(src/core/hle/service/ir/extra_hid.cpp).

The C++ class `ExtraHID` is shallowly embedded as a state record plus pure
step functions.  Interactions with the external collaborators (the transport
`send_func`, the event-scheduling service `CoreTiming`, and the input layer)
are made explicit as a list of `Effect`s emitted by each step.  The
millisecond-to-scheduler-tick conversion `msToCycles` lives in the external
`core_timing.h` and is therefore taken as a parameter `f : Nat → Int`
everywhere it is used; nothing about its value is assumed.

Bytes are modelled as `Nat` with the hypothesis `< 256` where it matters.
The `float` arithmetic of the analog-stick quantization is modelled over `ℚ`
with exact arithmetic; at every concrete input used in a theorem below the
corresponding IEEE float computation is exact, so the model and the source
agree there.
-/

namespace ExtraHID

/-- `Common::AlignDown(value, size)` from common/alignment.h:
`value - value % size`. -/
def AlignDown (value size : Nat) : Nat :=
  value - value % size

/-- Observable interactions of the peripheral with its collaborators:
`CoreTiming::UnscheduleEvent(send_callback, 0)`,
`CoreTiming::ScheduleEvent(delay, send_callback)`, and `send_func(bytes)`. -/
inductive Effect where
  | unschedule : Effect
  | schedule (delay : Int) : Effect
  | send (bytes : List Nat) : Effect
deriving DecidableEq, Repr

/-- The delays of the `schedule` effects in an effect trace, in order. -/
def scheduledDelays : List Effect → List Int
  | [] => []
  | Effect.schedule d :: es => d :: scheduledDelays es
  | _ :: es => scheduledDelays es

/-- The byte sequences of the `send` effects in an effect trace, in order. -/
def sentPackets : List Effect → List (List Nat)
  | [] => []
  | Effect.send b :: es => b :: sentPackets es
  | _ :: es => sentPackets es

/-- The mutable state of one `ExtraHID` instance.
`calibration_data` is the 64-byte blob set in the constructor;
`hid_period` is the `u8 hid_period` member; `pending_event` models whether
the `send_callback` event is currently scheduled in `CoreTiming`;
`is_device_reload_pending` is the atomic flag; `input_loads` counts the
calls to `LoadInputDevices()` (re-acquisitions of the input handles). -/
structure State where
  calibration_data : List Nat
  hid_period : Nat
  pending_event : Bool
  is_device_reload_pending : Bool
  input_loads : Nat
deriving DecidableEq, Repr

/-- The hard-coded factory calibration blob from the constructor. -/
def factoryCalibrationData : List Nat :=
  [0x00, 0x00, 0x08, 0x80, 0x85, 0xEB, 0x11, 0x3F,
   0x85, 0xEB, 0x11, 0x3F, 0xFF, 0xFF, 0xFF, 0xF5,
   0xFF, 0x00, 0x08, 0x80, 0x85, 0xEB, 0x11, 0x3F,
   0x85, 0xEB, 0x11, 0x3F, 0xFF, 0xFF, 0xFF, 0x65,
   0xFF, 0x00, 0x08, 0x80, 0x85, 0xEB, 0x11, 0x3F,
   0x85, 0xEB, 0x11, 0x3F, 0xFF, 0xFF, 0xFF, 0x65,
   0xFF, 0x00, 0x08, 0x80, 0x85, 0xEB, 0x11, 0x3F,
   0x85, 0xEB, 0x11, 0x3F, 0xFF, 0xFF, 0xFF, 0x65]

/-- `ExtraHID::HandleReadHIDStatusRequest`.  `f` is `msToCycles`.
On a wrong size the request is dropped; otherwise the pending callback is
unscheduled, `hid_period = data[1]` is stored (a `u8` store, hence `% 256`),
and the callback is scheduled `msToCycles(hid_period)` ticks ahead. -/
def HandleReadHIDStatusRequest (f : Nat → Int) (s : State) (data : List Nat) :
    State × List Effect :=
  if data.length ≠ 3 then (s, [])
  else
    let p := data.getD 1 0 % 256
    ({ s with hid_period := p, pending_event := true },
     [Effect.unschedule, Effect.schedule (f p)])

/-- `ExtraHID::HandleReadCalibrationDataRequest`.
Parses the little-endian `u16` offset and size from bytes 2..5, aligns both
down to 16, drops the request if the window exceeds the blob, and otherwise
sends `0x11 ++ data[2..6] ++ calibration_data[offset : offset+size]`. -/
def HandleReadCalibrationDataRequest (s : State) (data : List Nat) :
    State × List Effect :=
  if data.length ≠ 6 then (s, [])
  else
    let offset0 := data.getD 2 0 + data.getD 3 0 * 256
    let size0 := data.getD 4 0 + data.getD 5 0 * 256
    let offset := AlignDown offset0 16
    let size := AlignDown size0 16
    if offset + size > s.calibration_data.length then (s, [])
    else
      let response :=
        0x11 :: ((data.drop 2).take 4 ++ (s.calibration_data.drop offset).take size)
      (s, [Effect.send response])

/-- `ExtraHID::Receive`.  The `switch` reads `data[0]`; on an empty input this
access is out of bounds in the source, which the model records as `none`.
Unknown opcodes are logged and dropped. -/
def Receive (f : Nat → Int) (s : State) (data : List Nat) :
    Option (State × List Effect) :=
  match data with
  | [] => none
  | b :: _ =>
    if b = 1 then some (HandleReadHIDStatusRequest f s data)
    else if b = 2 then some (HandleReadCalibrationDataRequest s data)
    else some (s, [])

/-- `ExtraHID::Disconnect`: `CoreTiming::UnscheduleEvent(send_callback, 0)`. -/
def Disconnect (s : State) : State × List Effect :=
  ({ s with pending_event := false }, [Effect.unschedule])

/-- `ExtraHID::ReloadInputDevices`: `is_device_reload_pending.store(true)`. -/
def ReloadInputDevices (s : State) : State :=
  { s with is_device_reload_pending := true }

/-- The analog quantization of `SendHIDStatus`:
`static_cast<u32>(C_STICK_CENTER + C_STICK_RADIUS * axis)` with
`C_STICK_CENTER = 0x800`, `C_STICK_RADIUS = 0x7FF`.  The `float` value is
modelled exactly in `ℚ`; the cast to `u32` truncates toward zero, which on
the nonnegative values arising for `axis ≥ -0x800/0x7FF` is the floor
(for values below that the source cast is undefined behavior). -/
def quantizeAxis (axis : ℚ) : Nat :=
  (Int.toNat ⌊(0x800 : ℚ) + 0x7FF * axis⌋) % 2 ^ 32

/-- The byte layout written by `SendHIDStatus`: the `c_stick` union is a
little-endian `u32` holding `BitField<0,8> header = 0x10`,
`BitField<8,12> c_stick_x` and `BitField<20,12> c_stick_y` (each `Assign`
masks its value to 12 bits); then the `buttons` byte with
`BitField<0,5> battery = 0x1F`, `BitField<5,1> zl = !zl_pressed`,
`BitField<6,1> zr = !zr_pressed`, `BitField<7,1> r = 1`; then `unknown = 0`.
`zl`/`zr` arguments are the pressed states returned by `GetStatus()`. -/
def encodeStatus (xq yq : Nat) (zl zr : Bool) : List Nat :=
  let word := 0x10 + xq % 2 ^ 12 * 2 ^ 8 + yq % 2 ^ 12 * 2 ^ 20
  let buttons :=
    0x1F + (if zl then 0 else 1) * 2 ^ 5 + (if zr then 0 else 1) * 2 ^ 6 + 2 ^ 7
  [word % 2 ^ 8, word / 2 ^ 8 % 2 ^ 8, word / 2 ^ 16 % 2 ^ 8,
   word / 2 ^ 24 % 2 ^ 8, buttons, 0]

/-- `ExtraHID::SendHIDStatus(cycles_late)`.  `f` is `msToCycles`; `x`, `y`
are the analog axes from `c_stick->GetStatus()`; `zl`, `zr` the pressed
states from the button devices; `late` is `cycles_late`.  Consumes the
reload flag (`exchange(false)`), reloading the input devices if it was set,
sends the encoded status packet, and reschedules itself
`msToCycles(hid_period) - cycles_late` ticks ahead. -/
def SendHIDStatus (f : Nat → Int) (s : State) (x y : ℚ) (zl zr : Bool)
    (late : Int) : State × List Effect :=
  let s1 :=
    if s.is_device_reload_pending then
      { s with is_device_reload_pending := false, input_loads := s.input_loads + 1 }
    else s
  let bytes := encodeStatus (quantizeAxis x) (quantizeAxis y) zl zr
  ({ s1 with pending_event := true },
   [Effect.send bytes, Effect.schedule (f s1.hid_period - late)])

/-- The 32-bit little-endian word formed by the first four bytes of a status
response (how the guest reads the packed `c_stick` union back). -/
def statusWord (bytes : List Nat) : Nat :=
  bytes.getD 0 0 + bytes.getD 1 0 * 2 ^ 8 + bytes.getD 2 0 * 2 ^ 16 +
    bytes.getD 3 0 * 2 ^ 24

/-- The 12-bit analog-X field decoded from a status response. -/
def decodeX (bytes : List Nat) : Nat :=
  statusWord bytes / 2 ^ 8 % 2 ^ 12

/-- The 12-bit analog-Y field decoded from a status response. -/
def decodeY (bytes : List Nat) : Nat :=
  statusWord bytes / 2 ^ 20 % 2 ^ 12

/-- The quantization as the spec's words state it: `round(center + radius *
axis)`, with mathematical rounding, then truncated like the `u32` cast and
the 12-bit field.  Written for comparison with `quantizeAxis` (the source's
behavior); the two differ. -/
def quantizeAxisSpecRound (axis : ℚ) : Nat :=
  (Int.toNat (round ((0x800 : ℚ) + 0x7FF * axis))) % 2 ^ 32

end ExtraHID

namespace ExtraHID

/-- The device state right after the constructor ran: the factory blob is
loaded, no callback is armed, no reload is pending.  Used to instantiate
witnesses on concrete inputs. -/
def state0 : State :=
  { calibration_data := factoryCalibrationData
    hid_period := 0
    pending_event := false
    is_device_reload_pending := false
    input_loads := 0 }

lemma sentPackets_of_pair (b : List Nat) (e : Effect) (es : List Effect) :
    sentPackets (Effect.send b :: e :: es) = b :: sentPackets (e :: es) := rfl

lemma quantizeAxis_of_bounds (a : ℚ) (h1 : -1 ≤ a) (h2 : a ≤ 1) :
    quantizeAxis a = (Int.toNat ⌊(0x800 : ℚ) + 0x7FF * a⌋) ∧
      1 ≤ ⌊(0x800 : ℚ) + 0x7FF * a⌋ ∧ ⌊(0x800 : ℚ) + 0x7FF * a⌋ ≤ 4095 := by
  have hv1 : (1 : ℚ) ≤ 0x800 + 0x7FF * a := by nlinarith
  have hv2 : (0x800 : ℚ) + 0x7FF * a ≤ 4095 := by nlinarith
  have hf1 : 1 ≤ ⌊(0x800 : ℚ) + 0x7FF * a⌋ := by
    exact Int.le_floor.mpr (by exact_mod_cast hv1)
  have hf2 : ⌊(0x800 : ℚ) + 0x7FF * a⌋ ≤ 4095 := by
    have := Int.floor_le ((0x800 : ℚ) + 0x7FF * a)
    exact_mod_cast this.trans hv2
  refine ⟨?_, hf1, hf2⟩
  unfold quantizeAxis
  omega

lemma statusWord_encodeStatus (xq yq : Nat) (zl zr : Bool) :
    statusWord (encodeStatus xq yq zl zr) =
      0x10 + xq % 2 ^ 12 * 2 ^ 8 + yq % 2 ^ 12 * 2 ^ 20 := by
  have hx : xq % 2 ^ 12 < 2 ^ 12 := Nat.mod_lt _ (by norm_num)
  have hy : yq % 2 ^ 12 < 2 ^ 12 := Nat.mod_lt _ (by norm_num)
  simp only [statusWord, encodeStatus, List.getD_cons_zero, List.getD_cons_succ]
  omega

lemma decodeX_encodeStatus (xq yq : Nat) (zl zr : Bool) :
    decodeX (encodeStatus xq yq zl zr) = xq % 2 ^ 12 := by
  have hx : xq % 2 ^ 12 < 2 ^ 12 := Nat.mod_lt _ (by norm_num)
  have hy : yq % 2 ^ 12 < 2 ^ 12 := Nat.mod_lt _ (by norm_num)
  rw [decodeX, statusWord_encodeStatus]
  omega

lemma decodeY_encodeStatus (xq yq : Nat) (zl zr : Bool) :
    decodeY (encodeStatus xq yq zl zr) = yq % 2 ^ 12 := by
  have hx : xq % 2 ^ 12 < 2 ^ 12 := Nat.mod_lt _ (by norm_num)
  have hy : yq % 2 ^ 12 < 2 ^ 12 := Nat.mod_lt _ (by norm_num)
  rw [decodeY, statusWord_encodeStatus]
  omega

lemma sentPackets_SendHIDStatus (f : Nat → Int) (st : State) (x y : ℚ)
    (zl zr : Bool) (late : Int) :
    sentPackets (SendHIDStatus f st x y zl zr late).2 =
      [encodeStatus (quantizeAxis x) (quantizeAxis y) zl zr] := by
  by_cases h : st.is_device_reload_pending <;>
    simp [SendHIDStatus, sentPackets, h]

lemma scheduledDelays_SendHIDStatus (f : Nat → Int) (st : State) (x y : ℚ)
    (zl zr : Bool) (late : Int) :
    scheduledDelays (SendHIDStatus f st x y zl zr late).2 =
      [f st.hid_period - late] := by
  by_cases h : st.is_device_reload_pending <;>
    simp [SendHIDStatus, scheduledDelays, h]

end ExtraHID

namespace ExtraHID

/-- C3: every broadcast tick that fires with reported lateness `late`
schedules its successor with delay `msToCycles(hid_period) - late`, so for
any nominal deadline `D`, a tick firing at `D + late` places the next
deadline at exactly `D + msToCycles(hid_period)`: no skew accumulates. -/
theorem tick_delay_drift_corrected (f : Nat → Int) (st : State) (x y : ℚ)
    (zl zr : Bool) (late : Int) :
    scheduledDelays (SendHIDStatus f st x y zl zr late).2 =
      [f st.hid_period - late] ∧
    ∀ D : Int, (D + late) + (f st.hid_period - late) = D + f st.hid_period := by
  refine ⟨scheduledDelays_SendHIDStatus f st x y zl zr late, fun D => by ring⟩

/-- C4: a 3-byte status-configuration request `[0x01, p, r]` first cancels
the pending broadcast callback (exactly one `unschedule`, emitted before the
`schedule`), stores `p` as the new period, and schedules the next tick
`msToCycles(p)` ticks after processing, whatever the previous state was. -/
theorem status_config_rearms (f : Nat → Int) (st : State) (p r : Nat)
    (hp : p < 256) :
    Receive f st [1, p, r] =
      some ({ st with hid_period := p, pending_event := true },
            [Effect.unschedule, Effect.schedule (f p)]) ∧
    List.count Effect.unschedule [Effect.unschedule, Effect.schedule (f p)] = 1 := by
  constructor
  · simp [Receive, HandleReadHIDStatusRequest, Nat.mod_eq_of_lt hp]
  · simp [List.count_cons]

/-- C4 witness: the spec's end-to-end example, period 5. -/
theorem status_config_rearms_witness :
    Receive (fun n => (n : Int)) state0 [1, 5, 0] =
      some ({ state0 with hid_period := 5, pending_event := true },
            [Effect.unschedule, Effect.schedule ((5 : Nat) : Int)]) ∧
    List.count Effect.unschedule
      [Effect.unschedule, Effect.schedule ((5 : Nat) : Int)] = 1 :=
  status_config_rearms (fun n => (n : Int)) state0 5 0 (by norm_num)

/-- C6: a malformed request (opcode 1 with length ≠ 3, opcode 2 with
length ≠ 6) or an unknown opcode sends nothing and leaves the state
untouched. -/
theorem malformed_or_unknown_dropped (f : Nat → Int) (st : State)
    (data : List Nat)
    (h : (data.headD 0 = 1 ∧ data.length ≠ 3) ∨
         (data.headD 0 = 2 ∧ data.length ≠ 6) ∨
         (data ≠ [] ∧ data.headD 0 ≠ 1 ∧ data.headD 0 ≠ 2)) :
    Receive f st data = some (st, []) := by
  match data with
  | [] =>
    rcases h with ⟨h1, _⟩ | ⟨h1, _⟩ | ⟨h1, _⟩ <;> simp at h1
  | b :: rest =>
    rcases h with ⟨h1, h2⟩ | ⟨h1, h2⟩ | ⟨_, h1, h2⟩
    · simp only [List.headD_cons] at h1
      subst h1
      simp only [List.length_cons] at h2
      simp [Receive, HandleReadHIDStatusRequest]
      omega
    · simp only [List.headD_cons] at h1
      subst h1
      simp only [List.length_cons] at h2
      simp [Receive, HandleReadCalibrationDataRequest]
      intro h5
      omega
    · simp only [List.headD_cons] at h1 h2
      simp [Receive, h1, h2]

/-- C6 witness: the spec's 2-byte opcode-1 request `[0x01, 0x05]`. -/
theorem malformed_or_unknown_dropped_witness :
    Receive (fun n => (n : Int)) state0 [1, 5] = some (state0, []) :=
  malformed_or_unknown_dropped (fun n => (n : Int)) state0 [1, 5]
    (Or.inl ⟨rfl, by norm_num⟩)

/-- C7: a broadcast tick consumes the reload flag exactly once: after any
tick the flag is clear; the input devices are re-acquired by the tick
exactly when the flag was set (`input_loads` grows by one then, and is
untouched otherwise); and a second tick with no interleaving
`ReloadInputDevices` does not reload again. -/
theorem reload_flag_consumed_once (f : Nat → Int) (st : State)
    (x y x2 y2 : ℚ) (zl zr zl2 zr2 : Bool) (late late2 : Int) :
    (SendHIDStatus f st x y zl zr late).1.is_device_reload_pending = false ∧
    (SendHIDStatus f st x y zl zr late).1.input_loads =
      st.input_loads + (if st.is_device_reload_pending then 1 else 0) ∧
    (SendHIDStatus f (SendHIDStatus f st x y zl zr late).1 x2 y2 zl2 zr2
        late2).1.input_loads =
      (SendHIDStatus f st x y zl zr late).1.input_loads ∧
    (ReloadInputDevices st).is_device_reload_pending = true := by
  by_cases h : st.is_device_reload_pending <;>
    simp [SendHIDStatus, ReloadInputDevices, h]

/-- C8: `Disconnect` is idempotent — a second call is observationally the
same as the first (same resulting state and same effects), and after one
call no broadcast callback is pending; it is a total function, so calling
it with nothing pending is well defined and errs nowhere. -/
theorem disconnect_idempotent (st : State) :
    Disconnect (Disconnect st).1 = Disconnect st ∧
    (Disconnect st).1.pending_event = false := by
  simp [Disconnect]

/-- C9: `Receive` dereferences `data[0]` with no emptiness check: for every
non-empty input the access is in bounds and dispatch proceeds, while the
empty input reaches an out-of-bounds index (modelled as `none`), so
non-emptiness is a necessary precondition. -/
theorem receive_first_byte_access (f : Nat → Int) (st : State)
    (data : List Nat) (h : data ≠ []) :
    (data[0]?).isSome = true ∧ (Receive f st data).isSome = true ∧
    Receive f st [] = none ∧ (([] : List Nat)[0]?) = none := by
  match data with
  | [] => exact absurd rfl h
  | b :: rest =>
    refine ⟨by simp, ?_, rfl, rfl⟩
    by_cases h1 : b = 1 <;> by_cases h2 : b = 2 <;>
      simp [Receive, h1, h2]

/-- C9 witness: a one-byte unknown-opcode packet. -/
theorem receive_first_byte_access_witness :
    (([7] : List Nat)[0]?).isSome = true ∧
    (Receive (fun n => (n : Int)) state0 [7]).isSome = true ∧
    Receive (fun n => (n : Int)) state0 [] = none ∧
    (([] : List Nat)[0]?) = none :=
  receive_first_byte_access (fun n => (n : Int)) state0 [7] (by simp)

/-- C10: the tick's rescheduling delay `msToCycles(hid_period) - late` is
not clamped at zero: whenever the reported lateness exceeds the converted
period, the delay handed to the scheduling service is negative. -/
theorem late_tick_delay_negative (f : Nat → Int) (st : State) (x y : ℚ)
    (zl zr : Bool) (late : Int) (h : f st.hid_period < late) :
    ∀ d ∈ scheduledDelays (SendHIDStatus f st x y zl zr late).2, d < 0 := by
  intro d hd
  rw [scheduledDelays_SendHIDStatus] at hd
  simp only [List.mem_singleton] at hd
  omega

/-- C10 witness: period converting to 10 ticks, lateness 11. -/
theorem late_tick_delay_negative_witness :
    (fun _ : Nat => (10 : Int)) state0.hid_period < 11 ∧
    ∀ d ∈ scheduledDelays
        (SendHIDStatus (fun _ => (10 : Int)) state0 0 0 false false 11).2,
      d < 0 :=
  ⟨by norm_num,
   late_tick_delay_negative (fun _ => (10 : Int)) state0 0 0 false false 11
     (by norm_num)⟩

end ExtraHID

namespace ExtraHID

/-- C1: a 6-byte calibration-read request `[0x02, b1, b2, b3, b4, b5]` with
raw little-endian offset `o = b2 + b3*256` and size `s = b4 + b5*256` uses
both aligned down to 16; if the aligned sum exceeds 64 nothing is sent and
the state is unchanged, otherwise the state is unchanged and exactly one
response is sent: `0x11`, the four raw offset/size bytes verbatim, then
`blob[floor16(o) : floor16(o) + floor16(s)]`. -/
theorem calibration_read_correct (f : Nat → Int) (st : State)
    (hcal : st.calibration_data.length = 64) (b1 b2 b3 b4 b5 : Nat)
    (h2 : b2 < 256) (h3 : b3 < 256) (h4 : b4 < 256) (h5 : b5 < 256) :
    Receive f st [2, b1, b2, b3, b4, b5] =
      (if AlignDown (b2 + b3 * 256) 16 + AlignDown (b4 + b5 * 256) 16 > 64
       then some (st, [])
       else some (st, [Effect.send ([0x11, b2, b3, b4, b5] ++
         (st.calibration_data.drop (AlignDown (b2 + b3 * 256) 16)).take
           (AlignDown (b4 + b5 * 256) 16))])) := by
  simp [Receive, HandleReadCalibrationDataRequest, hcal]
  split <;> rfl

/-- C1 witness: the spec's two end-to-end examples, offset 0x10 size 0x10
(in range) and offset 0x30 size 0x20 (out of range). -/
theorem calibration_read_correct_witness :
    Receive (fun n => (n : Int)) state0 [2, 0, 0x10, 0, 0x10, 0] =
      (if AlignDown (0x10 + 0 * 256) 16 + AlignDown (0x10 + 0 * 256) 16 > 64
       then some (state0, [])
       else some (state0, [Effect.send ([0x11, 0x10, 0, 0x10, 0] ++
         (state0.calibration_data.drop (AlignDown (0x10 + 0 * 256) 16)).take
           (AlignDown (0x10 + 0 * 256) 16))])) ∧
    Receive (fun n => (n : Int)) state0 [2, 0, 0x30, 0, 0x20, 0] =
      (if AlignDown (0x30 + 0 * 256) 16 + AlignDown (0x20 + 0 * 256) 16 > 64
       then some (state0, [])
       else some (state0, [Effect.send ([0x11, 0x30, 0, 0x20, 0] ++
         (state0.calibration_data.drop (AlignDown (0x30 + 0 * 256) 16)).take
           (AlignDown (0x20 + 0 * 256) 16))])) :=
  ⟨calibration_read_correct (fun n => (n : Int)) state0 (by decide) 0 0x10 0
      0x10 0 (by norm_num) (by norm_num) (by norm_num) (by norm_num),
   calibration_read_correct (fun n => (n : Int)) state0 (by decide) 0 0x30 0
      0x20 0 (by norm_num) (by norm_num) (by norm_num) (by norm_num)⟩

/-- C5: every status packet the broadcast tick emits is exactly the 6-byte
record: bytes 0..3 form a little-endian 32-bit word equal to
`0x10 + (x12 << 8) + (y12 << 20)` where `x12`, `y12` are the quantized axes
masked to 12 bits; byte 4 has its low 5 bits fixed to `0x1F`, bit 5 equal
to 1 exactly when ZL is not pressed, bit 6 equal to 1 exactly when ZR is
not pressed, and bit 7 fixed to 1; byte 5 is fixed to 0. -/
theorem status_packet_layout (f : Nat → Int) (st : State) (x y : ℚ)
    (zl zr : Bool) (late : Int) :
    sentPackets (SendHIDStatus f st x y zl zr late).2 =
      [encodeStatus (quantizeAxis x) (quantizeAxis y) zl zr] ∧
    (encodeStatus (quantizeAxis x) (quantizeAxis y) zl zr).length = 6 ∧
    statusWord (encodeStatus (quantizeAxis x) (quantizeAxis y) zl zr) =
      0x10 + quantizeAxis x % 2 ^ 12 * 2 ^ 8 +
        quantizeAxis y % 2 ^ 12 * 2 ^ 20 ∧
    (encodeStatus (quantizeAxis x) (quantizeAxis y) zl zr).getD 4 0 % 2 ^ 5 =
      0x1F ∧
    (encodeStatus (quantizeAxis x) (quantizeAxis y) zl zr).getD 4 0 / 2 ^ 5
        % 2 = (if zl then 0 else 1) ∧
    (encodeStatus (quantizeAxis x) (quantizeAxis y) zl zr).getD 4 0 / 2 ^ 6
        % 2 = (if zr then 0 else 1) ∧
    (encodeStatus (quantizeAxis x) (quantizeAxis y) zl zr).getD 4 0 / 2 ^ 7 =
      1 ∧
    (encodeStatus (quantizeAxis x) (quantizeAxis y) zl zr).getD 5 0 = 0 := by
  refine ⟨sentPackets_SendHIDStatus f st x y zl zr late, rfl,
    statusWord_encodeStatus _ _ zl zr, ?_, ?_, ?_, ?_, rfl⟩ <;>
    cases zl <;> cases zr <;> simp [encodeStatus]

end ExtraHID

namespace ExtraHID

/-- C2 counterexample: at axis value `1/2` (exactly representable in the
source's `float`, where the whole computation `0x800 + 0x7FF * 0.5 = 3071.5`
is exact) the emitted 12-bit field is 3071 — the `u32` cast truncates —
while the spec's formula `round(0x800 + 0x7FF * a)` gives 3072. -/
theorem analog_quantization_round_cex :
    decodeX ((sentPackets (SendHIDStatus (fun n => (n : Int)) state0 (1 / 2) 0
        false false 0).2).headD []) = 3071 ∧
    quantizeAxisSpecRound (1 / 2) % 2 ^ 12 = 3072 ∧
    decodeX ((sentPackets (SendHIDStatus (fun n => (n : Int)) state0 (1 / 2) 0
        false false 0).2).headD []) ≠ quantizeAxisSpecRound (1 / 2) % 2 ^ 12 := by
  have h1 : decodeX ((sentPackets (SendHIDStatus (fun n => (n : Int)) state0
      (1 / 2) 0 false false 0).2).headD []) = 3071 := by
    rw [sentPackets_SendHIDStatus]
    simp only [List.headD_cons]
    rw [decodeX_encodeStatus]
    norm_num [quantizeAxis] <;> omega
  have h2 : quantizeAxisSpecRound (1 / 2) % 2 ^ 12 = 3072 := by
    norm_num [quantizeAxisSpecRound, round_eq] <;> omega
  exact ⟨h1, h2, by rw [h1, h2]; norm_num⟩

/-- C2 (amended): for axes in `[-1, 1]` the emitted 12-bit field equals the
truncation `⌊0x800 + 0x7FF * a⌋` of the exact value — the `u32` cast
truncates instead of rounding — and the particular encodings hold as the
claim states them: axis 0 encodes to 0x800, axis 1 to 0x800 + 0x7FF, and
axis -1 to 0x800 - 0x7FF. -/
theorem analog_quantization_truncates (f : Nat → Int) (st : State) (x y : ℚ)
    (zl zr : Bool) (late : Int)
    (hx1 : -1 ≤ x) (hx2 : x ≤ 1) (hy1 : -1 ≤ y) (hy2 : y ≤ 1) :
    decodeX ((sentPackets (SendHIDStatus f st x y zl zr late).2).headD []) =
      Int.toNat ⌊(0x800 : ℚ) + 0x7FF * x⌋ ∧
    decodeY ((sentPackets (SendHIDStatus f st x y zl zr late).2).headD []) =
      Int.toNat ⌊(0x800 : ℚ) + 0x7FF * y⌋ ∧
    quantizeAxis 0 = 0x800 ∧
    quantizeAxis 1 = 0x800 + 0x7FF ∧
    quantizeAxis (-1) = 0x800 - 0x7FF := by
  obtain ⟨hqx, hx3, hx4⟩ := quantizeAxis_of_bounds x hx1 hx2
  obtain ⟨hqy, hy3, hy4⟩ := quantizeAxis_of_bounds y hy1 hy2
  rw [sentPackets_SendHIDStatus]
  simp only [List.headD_cons]
  rw [decodeX_encodeStatus, decodeY_encodeStatus, hqx, hqy]
  refine ⟨by omega, by omega, ?_, ?_, ?_⟩
  · norm_num [quantizeAxis] <;> omega
  · norm_num [quantizeAxis] <;> omega
  · norm_num [quantizeAxis] <;> omega

/-- C2 witness: the amended theorem applied at axes `x = 1/2`, `y = -1/4`
(both exactly representable, both strictly inside the range). -/
theorem analog_quantization_truncates_witness :
    (-1 ≤ (1 / 2 : ℚ)) ∧ ((1 / 2 : ℚ) ≤ 1) ∧
    (-1 ≤ (-1 / 4 : ℚ)) ∧ ((-1 / 4 : ℚ) ≤ 1) ∧
    (decodeX ((sentPackets (SendHIDStatus (fun n => (n : Int)) state0 (1 / 2)
        (-1 / 4) true false 7).2).headD []) =
      Int.toNat ⌊(0x800 : ℚ) + 0x7FF * (1 / 2)⌋ ∧
    decodeY ((sentPackets (SendHIDStatus (fun n => (n : Int)) state0 (1 / 2)
        (-1 / 4) true false 7).2).headD []) =
      Int.toNat ⌊(0x800 : ℚ) + 0x7FF * (-1 / 4)⌋ ∧
    quantizeAxis 0 = 0x800 ∧
    quantizeAxis 1 = 0x800 + 0x7FF ∧
    quantizeAxis (-1) = 0x800 - 0x7FF) :=
  ⟨by norm_num, by norm_num, by norm_num, by norm_num,
   analog_quantization_truncates (fun n => (n : Int)) state0 (1 / 2) (-1 / 4)
     true false 7 (by norm_num) (by norm_num) (by norm_num) (by norm_num)⟩

end ExtraHID
